import Mathlib

/-!
# equitize backend: user model and user routes

A shallow embedding of `backend/model_user.go` and `backend/routes_user.go`.

Every Go function becomes a Lean function that returns the list of effects it
performs on the outside world (store calls, provider calls, responses), in
order, together with its result.  Whatever the outside world answers is read
from a `World`: the store, the billing provider, the clock, the libraries and
the declarations of the package that live in other files.
-/

namespace Equitize

/-! ## Data model -/

/-- A reading of `time.Now()`. -/
abbrev Time := Nat

/-- Go `error` values: public errors, as built by `NewPublicError(status, code, message)`,
and every other error, known by the text its `Error()` method returns. -/
inductive GoError where
  | pub (status : Nat) (code : Nat) (message : String)
  | other (text : String)
  deriving DecidableEq, Repr

/-- Values of type `interface{}` passed as statement arguments. -/
inductive GoValue where
  | nil
  | str (s : String)
  | int (n : Int)
  | bool (b : Bool)
  | time (t : Time)
  deriving DecidableEq, Repr

/-- The `User` struct of `model_user.go`. -/
structure User where
  Id : Int
  FirstName : String
  LastName : String
  Email : String
  HashedPassword : String
  StripeId : String
  PictureUrl : String
  Active : Bool
  CreatedAt : Time
  UpdatedAt : Time
  DeletedAt : Option Time
  deriving DecidableEq, Repr

/-- The two `Queryable` handles the routes use: the connection pool `db` and the
transaction `tx` opened by `db.Begin()`. -/
inductive Handle where
  | db
  | tx
  deriving DecidableEq, Repr

/-- A Go `map[string]interface{}`: its entries, each key once. -/
abbrev GoMap := List (String × GoValue)

/-- The keys of a map. -/
def GoMap.keys (m : GoMap) : List String := m.map Prod.fst

/-- The assignment `m[k] = v`: replaces the value of an existing key, adds the key otherwise. -/
def GoMap.assign : GoMap → String → GoValue → GoMap
  | [], k, v => [(k, v)]
  | (k', v') :: rest, k, v =>
    if k' = k then (k, v) :: rest else (k', v') :: GoMap.assign rest k v

/-- What the payload of `responder.Json` can be in these routes: a `*User` or a `[]*User`,
`none` for nil. -/
inductive Payload where
  | user (u : Option User)
  | users (us : Option (List User))
  deriving DecidableEq, Repr

/-- The effects of the code on the outside world. -/
inductive Event where
  | debug (text : String)
  | hash (password : String) (cost : Nat)
  | begin
  | queryRow (h : Handle) (sql : String) (args : List GoValue)
  | query (h : Handle) (sql : String) (args : List GoValue)
  | rowsClose
  | exec (h : Handle) (sql : String) (args : List GoValue)
  | commit
  | rollback
  | stripeCustomer (email : String) (id : Int) (firstName : String) (lastName : String)
  | respondError (e : GoError)
  | respondJson (p : Payload)
  deriving DecidableEq, Repr

/-- The rows a successful `Query` yields: for each row `rows.Next()` reports, what
`rows.Scan` makes of it. -/
abbrev Rows := List (Except GoError User)

/-- Everything the code reads from outside the four source files. -/
structure World where
  /-- the value `PUBERR_ENTITY_NOT_FOUND`, declared in another file -/
  PUBERR_ENTITY_NOT_FOUND : GoError
  /-- the value `PUBERR_USER_CREATION_FAILED_EMAIL_TAKEN`, declared in another file -/
  PUBERR_USER_CREATION_FAILED_EMAIL_TAKEN : GoError
  /-- the value `PUBERR_INVALID_JSON`, declared in another file -/
  PUBERR_INVALID_JSON : GoError
  /-- the constant `ERRCODE_INVALID_FIELD`, declared in another file -/
  ERRCODE_INVALID_FIELD : Nat
  /-- the text `fmt.Sprintf(ERR_BODY_FIELD_INVALID, field)`; the format is declared in another file -/
  ERR_BODY_FIELD_INVALID : String → String
  /-- the `Error()` method of public errors, declared in another file -/
  publicErrorText : Nat → Nat → String → String
  /-- the password policy `IsValidPassword`, declared in another file -/
  IsValidPassword : String → Bool
  /-- the library check `validator.IsEmail` -/
  IsEmail : String → Bool
  /-- the library call `bcrypt.GenerateFromPassword` -/
  GenerateFromPassword : String → Nat → Except GoError String
  /-- the outcome of `db.Begin()`: `none` when the transaction is opened -/
  Begin : Option GoError
  /-- the outcome of `QueryRow(sql, args...).Scan(&id)` -/
  QueryRowScan : Handle → String → List GoValue → Except GoError Int
  /-- the outcome of `Query(sql, args...)` -/
  Query : Handle → String → List GoValue → Except GoError Rows
  /-- the error of `Exec(sql, args...)`: `none` when it succeeds -/
  Exec : Handle → String → List GoValue → Option GoError
  /-- the error of `tx.Commit()`: `none` when it succeeds -/
  Commit : Option GoError
  /-- the billing provider call `NewStripeCustomerId` -/
  NewStripeCustomerId : String → Int → String → String → Except GoError String
  /-- the order in which `range` walks a map -/
  rangeOrder : GoMap → List (String × GoValue)
  /-- the clock reading inside `CreateNewUser` -/
  nowCreate : Time
  /-- the clock reading inside `UpdateUserFields` -/
  nowUpdate : Time

/-- A world is lawful when `range` visits every entry of a map exactly once. -/
def World.RangeLawful (w : World) : Prop := ∀ m : GoMap, (w.rangeOrder m).Perm m

/-- The `Error()` method. -/
def GoError.Error (w : World) : GoError → String
  | .pub status code message => w.publicErrorText status code message
  | .other text => text

/-! ## model_user.go -/

def TABLE_NAME_USER : String := "users"

def FIELD_USER_STRIPE_ID : String := "stripe_id"

def SQL_CREATE_NEW_USER : String :=
  "\n\t\tINSERT INTO " ++ TABLE_NAME_USER ++
  "\n\t\t(first_name, last_name, email, hashed_password, stripe_id, picture_url, active, created_at, updated_at) VALUES\n\t\t($1, $2, $3, $4, $5, $6, $7, $8, $9) RETURNING id;\n\t"

def SQL_SELECT_USER_BY_ID : String :=
  "\n\t\tSELECT * FROM " ++ TABLE_NAME_USER ++ " WHERE (id = $1);\n\t"

def SQL_SELECT_USER_BY_EMAIL : String :=
  "\n\t\tSELECT * FROM " ++ TABLE_NAME_USER ++ " WHERE (email = $1);\n\t"

def SQL_SELECT_USERS : String :=
  "\n\t\tSELECT * FROM " ++ TABLE_NAME_USER ++ " OFFSET $1 LIMIT $2;\n\t"

/-- The text `fmt.Sprintf(SQL_UPDATE_USER, updates)`: the format has the single verb `%s`. -/
def SQL_UPDATE_USER (updates : String) : String :=
  "\n\t\tUPDATE " ++ TABLE_NAME_USER ++ " SET " ++ updates ++ " WHERE (id = $1);;\n\t"

/-- The decimal text `strconv.Itoa` gives for a number that is not negative. -/
def Itoa (n : Nat) : String := toString n

/-- The variables of the loop of `UpdateUserFields`. -/
structure SetLoop where
  updates : String
  values : List GoValue
  i : Nat
  deriving DecidableEq, Repr

/-- One turn of the loop of `UpdateUserFields`. -/
def SetLoop.step (st : SetLoop) (entry : String × GoValue) : SetLoop :=
  let updates := if st.i > 0 then st.updates ++ ", " else st.updates
  let updates := updates ++ entry.1
  let updates := updates ++ " = $"
  let updates := updates ++ Itoa (st.i + 2)
  { updates := updates, values := st.values ++ [entry.2], i := st.i + 1 }

/-- The function `UpdateUserFields`: the effects, the error returned (`none` for nil), and
the caller's map as the call leaves it. -/
def UpdateUserFields (w : World) (h : Handle) (id : Int) (keyVals : GoMap) (now : Time) :
    List Event × Option GoError × GoMap :=
  if keyVals.length < 1 then
    ([], none, keyVals)
  else
    let keyVals := keyVals.assign "updated_at" (GoValue.time now)
    let st := (w.rangeOrder keyVals).foldl SetLoop.step
      { updates := "", values := [GoValue.int id], i := 0 }
    let sql := SQL_UPDATE_USER st.updates
    ([Event.exec h sql st.values], w.Exec h sql st.values, keyVals)

/-- The test `strings.HasPrefix` on the characters of two strings. -/
def hasPrefixChars : List Char → List Char → Bool
  | _, [] => true
  | [], _ :: _ => false
  | c :: s, d :: t => c == d && hasPrefixChars s t

/-- The test `strings.Contains` on the characters of two strings. -/
def containsChars : List Char → List Char → Bool
  | [], substr => hasPrefixChars [] substr
  | c :: s, substr => hasPrefixChars (c :: s) substr || containsChars s substr

/-- The library function `strings.Contains`. -/
def Contains (s substr : String) : Bool := containsChars s.toList substr.toList

/-- The text `CreateNewUser` looks for in the error of the insert. -/
def EMAIL_KEY_VIOLATION : String := "violates unique constraint \"users_email_key\""

/-- The method `populateFromRow`: it logs the row and scans it into a copy of the receiver. -/
def populateFromRow (rowText : String) (scan : Option GoError) : List Event × Option GoError :=
  ([Event.debug ("Populate from row " ++ rowText)], scan)

/-- The function `GetUser`: the effects, and the pair returned (`none` for nil). -/
def GetUser (w : World) (h : Handle) (id : Int) : List Event × (Option User × Option GoError) :=
  let call := Event.query h SQL_SELECT_USER_BY_ID [GoValue.int id]
  match w.Query h SQL_SELECT_USER_BY_ID [GoValue.int id] with
  | .error _ => ([call], (none, some w.PUBERR_ENTITY_NOT_FOUND))
  | .ok rows =>
    match rows with
    | .error err :: _ => ([call, Event.rowsClose], (none, some err))
    | .ok user :: _ => ([call, Event.rowsClose], (some user, none))
    | [] => ([call, Event.rowsClose], (none, some w.PUBERR_ENTITY_NOT_FOUND))

/-- The function `FindUserByEmail`: the effects, and the pair returned (`none` for nil). -/
def FindUserByEmail (w : World) (h : Handle) (email : String) :
    List Event × (Option User × Option GoError) :=
  let call := Event.query h SQL_SELECT_USER_BY_EMAIL [GoValue.str email]
  match w.Query h SQL_SELECT_USER_BY_EMAIL [GoValue.str email] with
  | .error _ => ([call], (none, some w.PUBERR_ENTITY_NOT_FOUND))
  | .ok rows =>
    match rows with
    | .error err :: _ => ([call, Event.rowsClose], (none, some err))
    | .ok newUser :: _ => ([call, Event.rowsClose], (some newUser, none))
    | [] => ([call, Event.rowsClose], (none, some w.PUBERR_ENTITY_NOT_FOUND))

/-- How a call ends: it returns, or a run-time panic unwinds it. -/
inductive Completion (α : Type) where
  | returned (a : α)
  | panicked (reason : String)
  deriving DecidableEq, Repr

/-- The largest allocation the Go runtime accepts on a 64-bit platform, `maxAlloc`: 2^48
bytes. -/
def maxAlloc : Int := 281474976710656

/-- The built-in `make([]*User, n, m)` on a 64-bit platform, as the runtime's `makeslice`
runs it for an element of 8 bytes.  With `mem` the product of the element size and
`uintptr(m)`, the call panics when the product overflows 64 bits, or `mem` exceeds
`maxAlloc`, or `n` is negative or larger than `m`; the panic names the length when the
length alone is out of range, and the capacity otherwise.  In every other case the result
is a slice of length `n`, built here for `n = 0`.  Whether the machine holds the memory
asked for is not part of this model. -/
def makeUsers (n m : Int) : Completion (List User) :=
  let product := 8 * (m % 18446744073709551616)
  let overflow := 18446744073709551616 ≤ product
  let mem := product % 18446744073709551616
  if overflow ∨ mem > maxAlloc ∨ n < 0 ∨ n > m then
    let productLen := 8 * (n % 18446744073709551616)
    let overflowLen := 18446744073709551616 ≤ productLen
    let memLen := productLen % 18446744073709551616
    if overflowLen ∨ memLen > maxAlloc ∨ n < 0 then
      Completion.panicked "runtime error: makeslice: len out of range"
    else
      Completion.panicked "runtime error: makeslice: cap out of range"
  else
    Completion.returned []

/-- The loop of `GetUsers` over the rows still to read. -/
def scanUsers : Rows → List User → Option (List User) × Option GoError
  | [], users => (some users, none)
  | .error err :: _, _ => (none, some err)
  | .ok newUser :: rest, users => scanUsers rest (users ++ [newUser])

/-- The function `GetUsers`: the effects, and how the call ends. -/
def GetUsers (w : World) (h : Handle) (offset limit : Int) :
    List Event × Completion (Option (List User) × Option GoError) :=
  let call := Event.query h SQL_SELECT_USERS [GoValue.int offset, GoValue.int limit]
  match w.Query h SQL_SELECT_USERS [GoValue.int offset, GoValue.int limit] with
  | .error _ => ([call], Completion.returned (none, some w.PUBERR_ENTITY_NOT_FOUND))
  | .ok rows =>
    match makeUsers 0 limit with
    | .panicked reason => ([call, Event.rowsClose], Completion.panicked reason)
    | .returned users => ([call, Event.rowsClose], Completion.returned (scanUsers rows users))

/-- The function `CreateNewUser`: the effects, and the pair returned (`none` for nil). -/
def CreateNewUser (w : World) (h : Handle)
    (FirstName LastName Email HashedPassword StripeId PictureUrl : String) (now : Time) :
    List Event × (Int × Option GoError) :=
  let args := [GoValue.str FirstName, GoValue.str LastName, GoValue.str Email,
    GoValue.str HashedPassword, GoValue.str StripeId, GoValue.str PictureUrl,
    GoValue.bool true, GoValue.time now, GoValue.time now]
  let call := Event.queryRow h SQL_CREATE_NEW_USER args
  match w.QueryRowScan h SQL_CREATE_NEW_USER args with
  | .error err =>
    if Contains (err.Error w) EMAIL_KEY_VIOLATION then
      ([call], (-1, some w.PUBERR_USER_CREATION_FAILED_EMAIL_TAKEN))
    else
      ([call], (-1, some err))
  | .ok id => ([call], (id, none))

/-! ## routes_user.go -/

def USER_FIELD_FIRST_NAME : String := "firstName"

def USER_FIELD_LAST_NAME : String := "lastName"

def USER_FIELD_EMAIL : String := "email"

def USER_FIELD_PASSWORD : String := "password"

def USER_FIELD_PICTURE_URL : String := "pictureUrl"

/-- The constant `http.StatusBadRequest`. -/
def StatusBadRequest : Nat := 400

/-- The constructor `NewPublicError`, declared in another file. -/
def NewPublicError (status code : Nat) (message : String) : GoError :=
  GoError.pub status code message

/-- The values `encoding/json` decodes into an `interface{}`. -/
inductive Json where
  | null
  | bool (b : Bool)
  | number (literal : String)
  | string (s : String)
  | array (items : List Json)
  | object (fields : List (String × Json))

/-- A decoded request body, a `map[string]interface{}`. -/
abbrev Body := List (String × Json)

/-- The index expression `body[key]`: nil when the key is absent. -/
def Body.index : Body → String → Json
  | [], _ => Json.null
  | (k, v) :: rest, key => if k = key then v else Body.index rest key

/-- Modelled from the spec: the helper `String` (here `StringValue`, the name `String` being
taken), declared in a file that is not among the sources.  The fields of the body are "all required strings": the helper is the type
assertion to string, giving the string and true for a string, and false for anything else. -/
def StringValue (v : Json) : String × Bool :=
  match v with
  | Json.string s => (s, true)
  | _ => ("", false)

/-- The error the register route answers with for a field it rejects. -/
def invalidField (w : World) (field : String) : GoError :=
  NewPublicError StatusBadRequest w.ERRCODE_INVALID_FIELD (w.ERR_BODY_FIELD_INVALID field)

/-- The handler of `POST /api/users` from the point where the transaction is open. -/
def registerInTx (w : World) (firstName lastName email hashedPassword pictureUrl : String) :
    List Event :=
  let created := CreateNewUser w Handle.tx firstName lastName email hashedPassword ""
    pictureUrl w.nowCreate
  let newId := created.2.1
  match created.2.2 with
  | some err => created.1 ++ [Event.rollback, Event.respondError err]
  | none =>
    let call := Event.stripeCustomer email newId firstName lastName
    match w.NewStripeCustomerId email newId firstName lastName with
    | .error err => created.1 ++ [call, Event.rollback, Event.respondError err]
    | .ok stripeId =>
      let updateArgs := GoMap.assign [] FIELD_USER_STRIPE_ID (GoValue.str stripeId)
      let updated := UpdateUserFields w Handle.tx newId updateArgs w.nowUpdate
      match updated.2.1 with
      | some err =>
        created.1 ++ [call] ++ updated.1 ++ [Event.rollback, Event.respondError err]
      | none =>
        match w.Commit with
        | some err =>
          created.1 ++ [call] ++ updated.1 ++
            [Event.commit, Event.rollback, Event.respondError err]
        | none =>
          let read := GetUser w Handle.db newId
          let newUser := read.2.1
          match read.2.2 with
          | some err =>
            created.1 ++ [call] ++ updated.1 ++ [Event.commit] ++ read.1 ++
              [Event.respondError err]
          | none =>
            created.1 ++ [call] ++ updated.1 ++ [Event.commit] ++ read.1 ++
              [Event.respondJson (Payload.user newUser)]

/-- The handler of `POST /api/users`, given what `decoder.Decode(&body)` returned. -/
def registerUser (w : World) (decoded : Except GoError Body) : List Event :=
  match decoded with
  | .error _ => [Event.respondError w.PUBERR_INVALID_JSON]
  | .ok body =>
    let (firstName, ok) := StringValue (body.index USER_FIELD_FIRST_NAME)
    if !ok then [Event.respondError (invalidField w USER_FIELD_FIRST_NAME)] else
    let (lastName, ok) := StringValue (body.index USER_FIELD_LAST_NAME)
    if !ok then [Event.respondError (invalidField w USER_FIELD_LAST_NAME)] else
    let (email, ok) := StringValue (body.index USER_FIELD_EMAIL)
    if !ok || !w.IsEmail email then [Event.respondError (invalidField w USER_FIELD_EMAIL)] else
    let (password, ok) := StringValue (body.index USER_FIELD_PASSWORD)
    if !ok || !w.IsValidPassword password then
      [Event.respondError (invalidField w USER_FIELD_PASSWORD)] else
    let (pictureUrl, ok) := StringValue (body.index USER_FIELD_PICTURE_URL)
    if !ok then [Event.respondError (invalidField w USER_FIELD_PICTURE_URL)] else
    match w.GenerateFromPassword password 7 with
    | .error err => [Event.hash password 7, Event.respondError err]
    | .ok hashedPassword =>
      match w.Begin with
      | some err => [Event.hash password 7, Event.begin, Event.respondError err]
      | none =>
        [Event.hash password 7, Event.begin] ++
          registerInTx w firstName lastName email hashedPassword pictureUrl

/-- The query values of a request URL: each key with its values. -/
abbrev Values := List (String × List String)

/-- The method `Values.Get`: the first value of the key, the empty string when there is none. -/
def Values.Get : Values → String → String
  | [], _ => ""
  | (k, vs) :: rest, key => if k = key then vs.headD "" else Values.Get rest key

/-- The number a list of decimal digits stands for. -/
def digitsValue (ds : List Char) : Nat :=
  ds.foldl (fun acc c => 10 * acc + (c.toNat - 48)) 0

/-- The library function `strconv.Atoi` for a 64-bit `int`: an optional sign, then one or
more decimal digits, the value within the range of `int`; `none` when it returns an error. -/
def Atoi (s : String) : Option Int :=
  let sign := match s.toList with
    | '+' :: ds => (false, ds)
    | '-' :: ds => (true, ds)
    | ds => (false, ds)
  let ds := sign.2
  if ds.isEmpty || !ds.all Char.isDigit then none else
  let n : Int := if sign.1 then - (digitsValue ds : Int) else (digitsValue ds : Int)
  if n < -9223372036854775808 ∨ 9223372036854775807 < n then none else some n

/-- The handler of `GET /api/users`: the effects, and how the handler ends. -/
def listUsers (w : World) (values : Values) : List Event × Completion Unit :=
  let offset := match Atoi (values.Get "offset") with
    | none => 0
    | some n => n
  let limit := match Atoi (values.Get "limit") with
    | none => 20
    | some n => n
  let got := GetUsers w Handle.db offset limit
  match got.2 with
  | .panicked reason => (got.1, Completion.panicked reason)
  | .returned (_, some err) => (got.1 ++ [Event.respondError err], Completion.returned ())
  | .returned (users, none) =>
    (got.1 ++ [Event.respondJson (Payload.users users)], Completion.returned ())

/-! ## A concrete world -/

/-- The row of the user with id 1 in the calm world. -/
def ada : User where
  Id := 1
  FirstName := "Ada"
  LastName := "Lovelace"
  Email := "ada@example.com"
  HashedPassword := "hashed:Str0ngPass!"
  StripeId := "cus_1"
  PictureUrl := "http://x/a.png"
  Active := true
  CreatedAt := 1000
  UpdatedAt := 1001
  DeletedAt := none

/-- The request body of the registration of Ada. -/
def adaBody : Body :=
  [("firstName", Json.string "Ada"), ("lastName", Json.string "Lovelace"),
    ("email", Json.string "ada@example.com"), ("password", Json.string "Str0ngPass!"),
    ("pictureUrl", Json.string "http://x/a.png")]

/-- A world where every call succeeds: the store gives the new row the id 1 and finds that
row, and no other, when asked for it, the provider names the customer `cus_1`, and `range`
walks a map from its last entry to its first. -/
def calmWorld : World where
  PUBERR_ENTITY_NOT_FOUND := GoError.pub 404 1 "not found"
  PUBERR_USER_CREATION_FAILED_EMAIL_TAKEN := GoError.pub 409 2 "email taken"
  PUBERR_INVALID_JSON := GoError.pub 400 3 "invalid json"
  ERRCODE_INVALID_FIELD := 4
  ERR_BODY_FIELD_INVALID := fun field => "invalid field: " ++ field
  publicErrorText := fun _ _ message => message
  IsValidPassword := fun password => decide (8 ≤ password.length)
  IsEmail := fun email => List.elem '@' email.toList
  GenerateFromPassword := fun password _ => Except.ok ("hashed:" ++ password)
  Begin := none
  QueryRowScan := fun _ _ _ => Except.ok 1
  Query := fun _ _ args =>
    if args = [GoValue.int 1] then Except.ok [Except.ok ada] else Except.ok []
  Exec := fun _ _ _ => none
  Commit := none
  NewStripeCustomerId := fun _ _ _ _ => Except.ok "cus_1"
  rangeOrder := List.reverse
  nowCreate := 1000
  nowUpdate := 1001

/-- The calm world, except that the insert meets an email that is already there. -/
def takenWorld : World :=
  { calmWorld with
    QueryRowScan := fun _ _ _ => Except.error (GoError.other
      "pq: duplicate key value violates unique constraint \"users_email_key\"") }

/-- The calm world, except that the provider refuses the customer. -/
def refusingWorld : World :=
  { calmWorld with
    NewStripeCustomerId := fun _ _ _ _ => Except.error (GoError.other "stripe: card error") }

/-- The calm world, except that the store fails the statement of the attach step. -/
def attachFailWorld : World :=
  { calmWorld with
    Exec := fun _ _ _ => some (GoError.other "pq: could not serialize access") }

/-- The calm world, except that the store fails the commit. -/
def commitFailWorld : World :=
  { calmWorld with Commit := some (GoError.other "pq: commit failed") }

/-- A first name of 101 characters. -/
def longName : String := String.mk (List.replicate 101 'a')

/-- The request body of the registration of Ada under a first name of 101 characters. -/
def longNameBody : Body :=
  [("firstName", Json.string longName), ("lastName", Json.string "Lovelace"),
    ("email", Json.string "ada@example.com"), ("password", Json.string "Str0ngPass!"),
    ("pictureUrl", Json.string "http://x/a.png")]

/-- The request body of a registration whose email is not an email address. -/
def noEmailBody : Body :=
  [("firstName", Json.string "Ada"), ("lastName", Json.string "Lovelace"),
    ("email", Json.string "not-an-email"), ("password", Json.string "Str0ngPass!"),
    ("pictureUrl", Json.string "http://x/a.png")]

/-- The calm world, except that every `Query` fails in the driver. -/
def downWorld : World :=
  { calmWorld with
    Query := fun _ _ _ => Except.error (GoError.other "pq: connection refused") }

/-! ## Specification-side definitions -/

/-- The request body passes every check of the register route, its fields being the five
strings given. -/
def Accepted (w : World) (body : Body)
    (firstName lastName email password pictureUrl : String) : Prop :=
  body.index USER_FIELD_FIRST_NAME = Json.string firstName ∧
  body.index USER_FIELD_LAST_NAME = Json.string lastName ∧
  body.index USER_FIELD_EMAIL = Json.string email ∧
  w.IsEmail email = true ∧
  body.index USER_FIELD_PASSWORD = Json.string password ∧
  w.IsValidPassword password = true ∧
  body.index USER_FIELD_PICTURE_URL = Json.string pictureUrl

/-- An effect of the handler reports the orphaned identity to the operators when it is a
line of the diagnostics, a call of `Debug`, whose text carries the identity. -/
def reportsOrphan (stripeId : String) : Event → Bool
  | Event.debug text => Contains text stripeId
  | _ => false

/-- The insert statement the register route runs in its transaction. -/
def insertCall (w : World) (firstName lastName email hashedPassword pictureUrl : String) :
    Event :=
  Event.queryRow Handle.tx SQL_CREATE_NEW_USER
    [GoValue.str firstName, GoValue.str lastName, GoValue.str email,
      GoValue.str hashedPassword, GoValue.str "", GoValue.str pictureUrl,
      GoValue.bool true, GoValue.time w.nowCreate, GoValue.time w.nowCreate]

/-- The assignments `name = $k` of a list of entries, the first one numbered `k`. -/
def assignmentsFrom : Nat → List (String × GoValue) → List String
  | _, [] => []
  | k, entry :: rest => (entry.1 ++ " = $" ++ Itoa k) :: assignmentsFrom (k + 1) rest

/-! ## Lemmas on maps and on the loop of `UpdateUserFields` -/

theorem mem_keys_assign (m : GoMap) (k : String) (v : GoValue) (k' : String) :
    k' ∈ (m.assign k v).keys ↔ (k' ∈ m.keys ∨ k' = k) := by
  induction m with
  | nil => simp [GoMap.assign, GoMap.keys]
  | cons e rest ih =>
    obtain ⟨k₀, v₀⟩ := e
    simp only [GoMap.assign]
    by_cases hk : k₀ = k
    · subst hk
      simp [GoMap.keys]
      tauto
    · simp only [hk, if_false]
      simp only [GoMap.keys, List.map_cons, List.mem_cons] at ih ⊢
      rw [ih]
      tauto

theorem nodup_keys_assign (m : GoMap) (k : String) (v : GoValue) (hm : m.keys.Nodup) :
    (m.assign k v).keys.Nodup := by
  induction m with
  | nil => simp [GoMap.assign, GoMap.keys]
  | cons e rest ih =>
    obtain ⟨k₀, v₀⟩ := e
    simp only [GoMap.keys, List.map_cons, List.nodup_cons] at hm
    simp only [GoMap.assign]
    by_cases hk : k₀ = k
    · subst hk
      simpa [GoMap.keys] using hm
    · simp only [hk, if_false, GoMap.keys, List.map_cons, List.nodup_cons]
      refine ⟨?_, ih hm.2⟩
      intro hmem
      have := (mem_keys_assign rest k v k₀).1 hmem
      rcases this with h | h
      · exact hm.1 h
      · exact hk h

theorem mem_assign (m : GoMap) (k : String) (v : GoValue) (hm : m.keys.Nodup)
    (k' : String) (v' : GoValue) (h : (k', v') ∈ m.assign k v) :
    (k' = k → v' = v) ∧ (k' ≠ k → (k', v') ∈ m) := by
  induction m with
  | nil =>
    simp only [GoMap.assign, List.mem_singleton, Prod.mk.injEq] at h
    obtain ⟨rfl, rfl⟩ := h
    simp
  | cons e rest ih =>
    obtain ⟨k₀, v₀⟩ := e
    simp only [GoMap.keys, List.map_cons, List.nodup_cons] at hm
    simp only [GoMap.assign] at h
    by_cases hk : k₀ = k
    · subst hk
      simp only [if_true, List.mem_cons, Prod.mk.injEq] at h
      rcases h with ⟨rfl, rfl⟩ | h
      · simp
      · have hmem : k' ∈ List.map Prod.fst rest := List.mem_map_of_mem Prod.fst h
        constructor
        · intro hk'
          subst hk'
          exact absurd hmem hm.1
        · intro _
          exact List.mem_cons_of_mem _ h
    · simp only [hk, if_false, List.mem_cons, Prod.mk.injEq] at h
      rcases h with ⟨rfl, rfl⟩ | h
      · exact ⟨fun h' => absurd h' hk, fun _ => List.mem_cons_self _ _⟩
      · have := ih hm.2 h
        exact ⟨this.1, fun h' => List.mem_cons_of_mem _ (this.2 h')⟩

theorem mem_assign_of_mem (m : GoMap) (k : String) (v : GoValue) (k' : String) (v' : GoValue)
    (h : (k', v') ∈ m) (hk : k' ≠ k) : (k', v') ∈ m.assign k v := by
  induction m with
  | nil => simp at h
  | cons e rest ih =>
    obtain ⟨k₀, v₀⟩ := e
    simp only [GoMap.assign]
    simp only [List.mem_cons, Prod.mk.injEq] at h
    by_cases hk₀ : k₀ = k
    · subst hk₀
      simp only [if_true, List.mem_cons, Prod.mk.injEq]
      rcases h with ⟨rfl, rfl⟩ | h
      · exact absurd rfl hk
      · exact Or.inr h
    · simp only [hk₀, if_false, List.mem_cons, Prod.mk.injEq]
      rcases h with h | h
      · exact Or.inl h
      · exact Or.inr (ih h)

theorem foldl_step_values (l : List (String × GoValue)) (st : SetLoop) :
    (l.foldl SetLoop.step st).values = st.values ++ l.map Prod.snd := by
  induction l generalizing st with
  | nil => simp
  | cons e rest ih => simp [List.foldl, ih, SetLoop.step]

theorem foldl_step_updates_pos (l : List (String × GoValue)) (st : SetLoop) (hi : 0 < st.i) :
    (l.foldl SetLoop.step st).updates =
      String.intercalate.go st.updates ", " (assignmentsFrom (st.i + 2) l) := by
  induction l generalizing st with
  | nil => simp [assignmentsFrom, String.intercalate.go]
  | cons e rest ih =>
    simp only [List.foldl, assignmentsFrom, String.intercalate.go]
    rw [ih _ (by simp [SetLoop.step])]
    simp [SetLoop.step, hi, String.append_assoc]

theorem foldl_step_updates (l : List (String × GoValue)) (vs : List GoValue) :
    (l.foldl SetLoop.step { updates := "", values := vs, i := 0 }).updates =
      String.intercalate ", " (assignmentsFrom 2 l) := by
  cases l with
  | nil => simp [assignmentsFrom, String.intercalate]
  | cons e rest =>
    simp only [List.foldl, assignmentsFrom, String.intercalate]
    rw [foldl_step_updates_pos _ _ (by simp [SetLoop.step])]
    simp [SetLoop.step, String.append_assoc]

theorem assignmentsFrom_length (k : Nat) (l : List (String × GoValue)) :
    (assignmentsFrom k l).length = l.length := by
  induction l generalizing k with
  | nil => simp [assignmentsFrom]
  | cons e rest ih => simp [assignmentsFrom, ih]

theorem assignmentsFrom_get (k : Nat) (l : List (String × GoValue)) (j : Nat) (hj : j < l.length) :
    (assignmentsFrom k l)[j]? = some ((l.get ⟨j, hj⟩).1 ++ " = $" ++ Itoa (k + j)) := by
  induction l generalizing k j with
  | nil => simp at hj
  | cons e rest ih =>
    cases j with
    | zero => simp [assignmentsFrom]
    | succ j =>
      simp only [assignmentsFrom, List.getElem?_cons_succ, List.get_cons_succ]
      rw [ih (k + 1) j (by simpa using hj)]
      simp [Nat.add_assoc, Nat.add_comm 1 j]

theorem SQL_UPDATE_USER_text (updates : String) :
    SQL_UPDATE_USER updates =
      "\n\t\tUPDATE users SET " ++ updates ++ " WHERE (id = $1);;\n\t" := rfl

theorem hasPrefixChars_iff (s t : List Char) :
    hasPrefixChars s t = true ↔ ∃ b, s = t ++ b := by
  induction t generalizing s with
  | nil => cases s <;> simp [hasPrefixChars]
  | cons d t ih =>
    cases s with
    | nil => simp [hasPrefixChars]
    | cons c s =>
      simp only [hasPrefixChars, Bool.and_eq_true, beq_iff_eq, ih, List.cons_append,
        List.cons.injEq]
      constructor
      · rintro ⟨rfl, b, rfl⟩
        exact ⟨b, rfl, rfl⟩
      · rintro ⟨b, rfl, rfl⟩
        exact ⟨rfl, b, rfl⟩

theorem containsChars_iff (s t : List Char) :
    containsChars s t = true ↔ ∃ a b, s = a ++ t ++ b := by
  induction s with
  | nil =>
    simp only [containsChars, hasPrefixChars_iff]
    constructor
    · rintro ⟨b, hb⟩
      exact ⟨[], b, by simpa using hb⟩
    · rintro ⟨a, b, hab⟩
      have h1 : a ++ t ++ b = [] := hab.symm
      simp only [List.append_eq_nil] at h1
      exact ⟨[], by simp [h1.1.2]⟩
  | cons c s ih =>
    simp only [containsChars, Bool.or_eq_true, hasPrefixChars_iff, ih]
    constructor
    · rintro (⟨b, hb⟩ | ⟨a, b, hab⟩)
      · exact ⟨[], b, by simpa using hb⟩
      · exact ⟨c :: a, b, by simp [hab]⟩
    · rintro ⟨a, b, hab⟩
      cases a with
      | nil => exact Or.inl ⟨b, by simpa using hab⟩
      | cons a₀ a =>
        simp only [List.cons_append, List.cons.injEq] at hab
        exact Or.inr ⟨a, b, hab.2⟩

/-- The model of `strings.Contains` holds exactly when the second text occurs in the first. -/
theorem Contains_iff (s substr : String) :
    Contains s substr = true ↔ ∃ a b : List Char, s.toList = a ++ substr.toList ++ b :=
  containsChars_iff _ _

theorem calmWorld_rangeLawful : calmWorld.RangeLawful :=
  fun m => List.reverse_perm m

/-! ## The partial-update builder -/

/-- C1: for every id, every non-empty field map and every order `range` may walk it in,
`UpdateUserFields` executes exactly one statement, `UPDATE users SET <assignments> WHERE
(id = $1)`, whose assignments, joined by ", ", are one `name = $k` per entry of the map
after `updated_at` has been set, numbered from 2 in the order walked; the arguments are the
id followed by the values in that same order; the keys written are the caller's keys and
`updated_at`, each once; `updated_at` is bound to the time read in the call and every other
key to the caller's value. -/
theorem UpdateUserFields_statement (w : World) (hw : w.RangeLawful) (h : Handle) (id : Int)
    (keyVals : GoMap) (now : Time) (hkeys : keyVals.keys.Nodup) (hne : keyVals ≠ []) :
    ∃ order : List (String × GoValue),
      order = w.rangeOrder (keyVals.assign "updated_at" (GoValue.time now)) ∧
      (UpdateUserFields w h id keyVals now).1 =
        [Event.exec h
          ("\n\t\tUPDATE users SET " ++ String.intercalate ", " (assignmentsFrom 2 order) ++
            " WHERE (id = $1);;\n\t")
          (GoValue.int id :: order.map Prod.snd)] ∧
      (assignmentsFrom 2 order).length = order.length ∧
      (∀ (j : Nat) (hj : j < order.length),
        (assignmentsFrom 2 order)[j]? = some ((order.get ⟨j, hj⟩).1 ++ " = $" ++ Itoa (j + 2)) ∧
        (GoValue.int id :: order.map Prod.snd)[j + 1]? = some (order.get ⟨j, hj⟩).2) ∧
      (order.map Prod.fst).Nodup ∧
      (∀ k, k ∈ order.map Prod.fst ↔ (k ∈ keyVals.keys ∨ k = "updated_at")) ∧
      (∀ k v, (k, v) ∈ order →
        (k = "updated_at" → v = GoValue.time now) ∧ (k ≠ "updated_at" → (k, v) ∈ keyVals)) ∧
      (∀ k v, (k, v) ∈ keyVals → k ≠ "updated_at" → (k, v) ∈ order) := by
  have hperm := hw (keyVals.assign "updated_at" (GoValue.time now))
  refine ⟨_, rfl, ?_, assignmentsFrom_length _ _, ?_, ?_, ?_, ?_, ?_⟩
  · have hlen : ¬ keyVals.length < 1 := by
      cases keyVals with
      | nil => exact absurd rfl hne
      | cons e rest => simp
    simp only [UpdateUserFields, hlen, if_false, foldl_step_updates, foldl_step_values,
      SQL_UPDATE_USER_text, List.singleton_append]
  · intro j hj
    refine ⟨?_, ?_⟩
    · rw [assignmentsFrom_get 2 _ j hj, Nat.add_comm 2 j]
    · simp [List.getElem?_eq_getElem hj]
  · exact (hperm.map Prod.fst).nodup_iff.2 (nodup_keys_assign keyVals _ _ hkeys)
  · intro k
    rw [(hperm.map Prod.fst).mem_iff]
    exact mem_keys_assign keyVals _ _ k
  · intro k v hkv
    exact mem_assign keyVals _ _ hkeys k v (hperm.mem_iff.1 hkv)
  · intro k v hkv hk
    exact hperm.mem_iff.2 (mem_assign_of_mem keyVals _ _ k v hkv hk)

theorem UpdateUserFields_statement_witness :
    calmWorld.RangeLawful ∧
    GoMap.keys [("stripe_id", GoValue.str "cus_1")] = ["stripe_id"] ∧
    (UpdateUserFields calmWorld Handle.tx 5 [("stripe_id", GoValue.str "cus_1")] 7).1 =
      [Event.exec Handle.tx
        "\n\t\tUPDATE users SET updated_at = $2, stripe_id = $3 WHERE (id = $1);;\n\t"
        [GoValue.int 5, GoValue.time 7, GoValue.str "cus_1"]] := by
  refine ⟨calmWorld_rangeLawful, rfl, ?_⟩
  obtain ⟨order, horder, htrace, -⟩ :=
    UpdateUserFields_statement calmWorld calmWorld_rangeLawful Handle.tx 5
      [("stripe_id", GoValue.str "cus_1")] 7 (by decide) (by simp)
  subst horder
  exact htrace

/-- C7: `UpdateUserFields` fails exactly when the field map is not empty and `Exec`
fails.  For an empty map it returns nil, performs no effect and leaves the map as it was
(no `updated_at`); for a non-empty map its only effect is one `Exec`, and what it returns is
what that `Exec` returned, nil included. -/
theorem UpdateUserFields_result (w : World) (h : Handle) (id : Int) (keyVals : GoMap)
    (now : Time) :
    (keyVals = [] → UpdateUserFields w h id keyVals now = ([], none, [])) ∧
    (keyVals ≠ [] → ∃ sql args,
      (UpdateUserFields w h id keyVals now).1 = [Event.exec h sql args] ∧
      (UpdateUserFields w h id keyVals now).2.1 = w.Exec h sql args) ∧
    ((UpdateUserFields w h id keyVals now).2.1 ≠ none ↔
      (keyVals ≠ [] ∧ ∃ sql args,
        Event.exec h sql args ∈ (UpdateUserFields w h id keyVals now).1 ∧
        w.Exec h sql args ≠ none)) := by
  cases keyVals with
  | nil => simp [UpdateUserFields]
  | cons e rest =>
    have hlen : ¬ (e :: rest).length < 1 := by simp
    refine ⟨fun hnil => absurd hnil (by simp), fun _ => ?_, ?_⟩
    · simp only [UpdateUserFields, hlen, if_false]
      exact ⟨_, _, rfl, rfl⟩
    · simp only [UpdateUserFields, hlen, if_false]
      constructor
      · intro hfail
        exact ⟨by simp, _, _, List.mem_singleton.2 rfl, hfail⟩
      · rintro ⟨-, sql, args, hmem, hfail⟩
        simp only [List.mem_singleton, Event.exec.injEq, true_and] at hmem
        obtain ⟨rfl, rfl⟩ := hmem
        exact hfail

theorem UpdateUserFields_result_witness :
    UpdateUserFields calmWorld Handle.tx 5 [] 7 = ([], none, []) ∧
    (([("stripe_id", GoValue.str "cus_1")] : GoMap) ≠ [] ∧ ∃ sql args,
      (UpdateUserFields calmWorld Handle.tx 5 [("stripe_id", GoValue.str "cus_1")] 7).1 =
        [Event.exec Handle.tx sql args] ∧
      (UpdateUserFields calmWorld Handle.tx 5 [("stripe_id", GoValue.str "cus_1")] 7).2.1 =
        calmWorld.Exec Handle.tx sql args) :=
  ⟨(UpdateUserFields_result calmWorld Handle.tx 5 [] 7).1 rfl,
   by simp,
   (UpdateUserFields_result calmWorld Handle.tx 5 [("stripe_id", GoValue.str "cus_1")] 7).2.1
     (by simp)⟩

/-! ## The accessors -/

/-- C8: `CreateNewUser` runs the insert once and returns, for every outcome of its row
scan: the id the store gave and nil when the scan succeeds; -1 and
`PUBERR_USER_CREATION_FAILED_EMAIL_TAKEN` when it fails with an error whose text contains
`violates unique constraint "users_email_key"`; -1 and that error itself for every other
error.  So for a store error that is not the email-taken value, the email-taken value comes
back exactly when the text names the violated email key. -/
theorem CreateNewUser_result (w : World) (h : Handle)
    (FirstName LastName Email HashedPassword StripeId PictureUrl : String) (now : Time) :
    ∃ args : List GoValue,
      args = [GoValue.str FirstName, GoValue.str LastName, GoValue.str Email,
        GoValue.str HashedPassword, GoValue.str StripeId, GoValue.str PictureUrl,
        GoValue.bool true, GoValue.time now, GoValue.time now] ∧
      (CreateNewUser w h FirstName LastName Email HashedPassword StripeId PictureUrl now).1 =
        [Event.queryRow h SQL_CREATE_NEW_USER args] ∧
      (∀ id, w.QueryRowScan h SQL_CREATE_NEW_USER args = Except.ok id →
        (CreateNewUser w h FirstName LastName Email HashedPassword StripeId PictureUrl now).2 =
          (id, none)) ∧
      (∀ err, w.QueryRowScan h SQL_CREATE_NEW_USER args = Except.error err →
        Contains (err.Error w) "violates unique constraint \"users_email_key\"" = true →
        (CreateNewUser w h FirstName LastName Email HashedPassword StripeId PictureUrl now).2 =
          (-1, some w.PUBERR_USER_CREATION_FAILED_EMAIL_TAKEN)) ∧
      (∀ err, w.QueryRowScan h SQL_CREATE_NEW_USER args = Except.error err →
        Contains (err.Error w) "violates unique constraint \"users_email_key\"" = false →
        (CreateNewUser w h FirstName LastName Email HashedPassword StripeId PictureUrl now).2 =
          (-1, some err)) ∧
      (∀ err, w.QueryRowScan h SQL_CREATE_NEW_USER args = Except.error err →
        err ≠ w.PUBERR_USER_CREATION_FAILED_EMAIL_TAKEN →
        ((CreateNewUser w h FirstName LastName Email HashedPassword StripeId PictureUrl now).2.2 =
            some w.PUBERR_USER_CREATION_FAILED_EMAIL_TAKEN ↔
          Contains (err.Error w) "violates unique constraint \"users_email_key\"" = true)) := by
  refine ⟨_, rfl, ?_, ?_, ?_, ?_, ?_⟩
  · simp only [CreateNewUser]
    split
    · split <;> rfl
    · rfl
  · intro id hscan
    simp only [CreateNewUser, hscan]
  · intro err hscan htext
    have htext' : Contains (err.Error w) EMAIL_KEY_VIOLATION = true := htext
    simp only [CreateNewUser, hscan, htext', if_true]
  · intro err hscan htext
    have htext' : Contains (err.Error w) EMAIL_KEY_VIOLATION = false := htext
    simp [CreateNewUser, hscan, htext']
  · intro err hscan hne
    by_cases htext : Contains (err.Error w) EMAIL_KEY_VIOLATION = true
    · have htext' := htext
      simp only [EMAIL_KEY_VIOLATION] at htext'
      simp [CreateNewUser, hscan, htext, htext']
    · have htext' := htext
      simp only [EMAIL_KEY_VIOLATION] at htext'
      simp only [CreateNewUser, hscan, htext, htext']
      simp [hne]

theorem CreateNewUser_result_witness :
    (CreateNewUser takenWorld Handle.tx "Ada" "Lovelace" "ada@example.com" "hashed" ""
      "http://x/a.png" 1000).2 = (-1, some (GoError.pub 409 2 "email taken")) := by
  obtain ⟨args, hargs, -, -, htaken, -⟩ :=
    CreateNewUser_result takenWorld Handle.tx "Ada" "Lovelace" "ada@example.com" "hashed" ""
      "http://x/a.png" 1000
  subst hargs
  exact htaken _ rfl (by decide)

/-- C9: for every id, every email and every store, when the `Query` call returns an error,
whatever it is, or succeeds with zero rows, `GetUser` and `FindUserByEmail` return a nil
user together with `PUBERR_ENTITY_NOT_FOUND`: the same value in both cases, and not the
error of the store. -/
theorem lookup_miss_not_found (w : World) (h : Handle) (id : Int) (email : String) :
    (∀ err, w.Query h SQL_SELECT_USER_BY_ID [GoValue.int id] = Except.error err →
      (GetUser w h id).2 = (none, some w.PUBERR_ENTITY_NOT_FOUND)) ∧
    (w.Query h SQL_SELECT_USER_BY_ID [GoValue.int id] = Except.ok [] →
      (GetUser w h id).2 = (none, some w.PUBERR_ENTITY_NOT_FOUND)) ∧
    (∀ err, w.Query h SQL_SELECT_USER_BY_EMAIL [GoValue.str email] = Except.error err →
      (FindUserByEmail w h email).2 = (none, some w.PUBERR_ENTITY_NOT_FOUND)) ∧
    (w.Query h SQL_SELECT_USER_BY_EMAIL [GoValue.str email] = Except.ok [] →
      (FindUserByEmail w h email).2 = (none, some w.PUBERR_ENTITY_NOT_FOUND)) := by
  refine ⟨?_, ?_, ?_, ?_⟩
  · intro err hq
    simp only [GetUser, hq]
  · intro hq
    simp only [GetUser, hq]
  · intro err hq
    simp only [FindUserByEmail, hq]
  · intro hq
    simp only [FindUserByEmail, hq]

theorem lookup_miss_not_found_witness :
    (GetUser downWorld Handle.db 7).2 = (none, some (GoError.pub 404 1 "not found")) ∧
    (GetUser calmWorld Handle.db 7).2 = (none, some (GoError.pub 404 1 "not found")) ∧
    (FindUserByEmail downWorld Handle.db "ada@example.com").2 =
      (none, some (GoError.pub 404 1 "not found")) ∧
    (FindUserByEmail calmWorld Handle.db "ada@example.com").2 =
      (none, some (GoError.pub 404 1 "not found")) :=
  ⟨(lookup_miss_not_found downWorld Handle.db 7 "ada@example.com").1 _ rfl,
   (lookup_miss_not_found calmWorld Handle.db 7 "ada@example.com").2.1 rfl,
   (lookup_miss_not_found downWorld Handle.db 7 "ada@example.com").2.2.1 _ rfl,
   (lookup_miss_not_found calmWorld Handle.db 7 "ada@example.com").2.2.2 rfl⟩

/-- C10, as stated, fails: the limit 4611686018427387904 is not negative and
`strconv.Atoi` accepts it, yet `GetUsers` does not return for it.  The query succeeding,
the allocation of the result buffer panics, and the list handler, given that limit in the
URL, ends in the same panic. -/
theorem GetUsers_large_limit_panics :
    Atoi "4611686018427387904" = some 4611686018427387904 ∧
    GetUsers calmWorld Handle.db 0 4611686018427387904 =
      ([Event.query Handle.db SQL_SELECT_USERS
          [GoValue.int 0, GoValue.int 4611686018427387904],
        Event.rowsClose],
       Completion.panicked "runtime error: makeslice: cap out of range") ∧
    listUsers calmWorld [("limit", ["4611686018427387904"])] =
      ([Event.query Handle.db SQL_SELECT_USERS
          [GoValue.int 0, GoValue.int 4611686018427387904],
        Event.rowsClose],
       Completion.panicked "runtime error: makeslice: cap out of range") ∧
    ¬ (∀ offset limit : Int, 0 ≤ limit →
      ∃ result, (GetUsers calmWorld Handle.db offset limit).2 = Completion.returned result) := by
  have hrun : GetUsers calmWorld Handle.db 0 4611686018427387904 =
      ([Event.query Handle.db SQL_SELECT_USERS
          [GoValue.int 0, GoValue.int 4611686018427387904],
        Event.rowsClose],
       Completion.panicked "runtime error: makeslice: cap out of range") := by decide
  refine ⟨by decide, hrun, by decide, ?_⟩
  intro hall
  obtain ⟨result, hresult⟩ := hall 0 4611686018427387904 (by decide)
  rw [hrun] at hresult
  exact absurd hresult (by simp)

/-- C10, amended: `GetUsers` returns, a list or an error, for every offset and every limit
from 0 to 35184372088832 (2^45, the largest capacity whose 8 bytes per element stay within
`maxAlloc`).  For a negative limit, and for a limit of type `int` above that bound, whenever
the `Query` call reports no error the allocation of the result buffer panics, whatever rows
the query holds, after the effects `Query` and the deferred `rows.Close()`.  The list
handler calls `GetUsers` on the plain connection with the offset and limit `strconv.Atoi`
parsed, whatever their sign, with 0 for an offset and 20 for a limit that does not parse
or is missing, and it ends in the panic of `GetUsers` without a response. -/
theorem GetUsers_limit (w : World) (h : Handle) (offset limit : Int) (values : Values) :
    (0 ≤ limit → limit ≤ 35184372088832 →
      ∃ result, (GetUsers w h offset limit).2 = Completion.returned result) ∧
    ((limit < 0 ∨ (35184372088832 < limit ∧ limit ≤ 9223372036854775807)) → ∀ rows,
      w.Query h SQL_SELECT_USERS [GoValue.int offset, GoValue.int limit] = Except.ok rows →
      GetUsers w h offset limit =
        ([Event.query h SQL_SELECT_USERS [GoValue.int offset, GoValue.int limit],
          Event.rowsClose],
         Completion.panicked "runtime error: makeslice: cap out of range")) ∧
    (∃ o l : Int,
      (Atoi (values.Get "offset") = some o ∨ (Atoi (values.Get "offset") = none ∧ o = 0)) ∧
      (Atoi (values.Get "limit") = some l ∨ (Atoi (values.Get "limit") = none ∧ l = 20)) ∧
      (∀ reason, (GetUsers w Handle.db o l).2 = Completion.panicked reason →
        listUsers w values = ((GetUsers w Handle.db o l).1, Completion.panicked reason)) ∧
      (∀ users err, (GetUsers w Handle.db o l).2 = Completion.returned (users, some err) →
        listUsers w values =
          ((GetUsers w Handle.db o l).1 ++ [Event.respondError err], Completion.returned ())) ∧
      (∀ users, (GetUsers w Handle.db o l).2 = Completion.returned (users, none) →
        listUsers w values =
          ((GetUsers w Handle.db o l).1 ++ [Event.respondJson (Payload.users users)],
            Completion.returned ()))) ∧
    Atoi "-5" = some (-5) ∧ Atoi "" = none ∧ Atoi "abc" = none ∧
    Values.Get [("offset", ["3"])] "limit" = "" := by
  refine ⟨?_, ?_, ?_, by decide, by decide, by decide, by decide⟩
  · intro hlimit hbound
    have hmake : makeUsers 0 limit = Completion.returned [] := by
      simp only [makeUsers, maxAlloc]
      rw [if_neg]
      omega
    simp only [GetUsers, hmake]
    split
    · exact ⟨_, rfl⟩
    · exact ⟨_, rfl⟩
  · intro hlimit rows hq
    have hmake : makeUsers 0 limit =
        Completion.panicked "runtime error: makeslice: cap out of range" := by
      simp only [makeUsers, maxAlloc]
      rw [if_pos, if_neg]
      · omega
      · omega
    simp only [GetUsers, hq, hmake]
  · refine ⟨(match Atoi (values.Get "offset") with | none => 0 | some n => n),
      (match Atoi (values.Get "limit") with | none => 20 | some n => n), ?_, ?_, ?_, ?_, ?_⟩
    · cases Atoi (values.Get "offset") <;> simp
    · cases Atoi (values.Get "limit") <;> simp
    · intro reason hgot
      simp only [listUsers, hgot]
    · intro users err hgot
      simp only [listUsers, hgot]
    · intro users hgot
      simp only [listUsers, hgot]

theorem GetUsers_limit_witness :
    GetUsers calmWorld Handle.db 0 (-1) =
      ([Event.query Handle.db SQL_SELECT_USERS [GoValue.int 0, GoValue.int (-1)],
        Event.rowsClose],
       Completion.panicked "runtime error: makeslice: cap out of range") ∧
    GetUsers calmWorld Handle.db 0 35184372088833 =
      ([Event.query Handle.db SQL_SELECT_USERS [GoValue.int 0, GoValue.int 35184372088833],
        Event.rowsClose],
       Completion.panicked "runtime error: makeslice: cap out of range") ∧
    (∃ result, (GetUsers calmWorld Handle.db 0 20).2 = Completion.returned result) ∧
    ∃ result, (GetUsers calmWorld Handle.db 0 35184372088832).2 = Completion.returned result :=
  ⟨(GetUsers_limit calmWorld Handle.db 0 (-1) []).2.1 (Or.inl (by decide)) [] rfl,
   (GetUsers_limit calmWorld Handle.db 0 35184372088833 []).2.1
     (Or.inr ⟨by decide, by decide⟩) [] rfl,
   (GetUsers_limit calmWorld Handle.db 0 20 []).1 (by decide) (by decide),
   (GetUsers_limit calmWorld Handle.db 0 35184372088832 []).1 (by decide) (by decide)⟩

/-! ## Lemmas on the register route -/

theorem CreateNewUser_effects (w : World) (h : Handle)
    (FirstName LastName Email HashedPassword StripeId PictureUrl : String) (now : Time) :
    (CreateNewUser w h FirstName LastName Email HashedPassword StripeId PictureUrl now).1 =
      [Event.queryRow h SQL_CREATE_NEW_USER
        [GoValue.str FirstName, GoValue.str LastName, GoValue.str Email,
          GoValue.str HashedPassword, GoValue.str StripeId, GoValue.str PictureUrl,
          GoValue.bool true, GoValue.time now, GoValue.time now]] := by
  simp only [CreateNewUser]
  split
  · split <;> rfl
  · rfl

theorem UpdateUserFields_single (w : World) (h : Handle) (id : Int) (k : String) (v : GoValue)
    (now : Time) :
    ∃ sql args, (UpdateUserFields w h id [(k, v)] now).1 = [Event.exec h sql args] ∧
      (UpdateUserFields w h id [(k, v)] now).2.1 = w.Exec h sql args :=
  ⟨_, _, rfl, rfl⟩

theorem GetUser_returns_user (w : World) (h : Handle) (id : Int)
    (hok : (GetUser w h id).2.2 = none) :
    ∃ user, GetUser w h id =
      ([Event.query h SQL_SELECT_USER_BY_ID [GoValue.int id], Event.rowsClose],
        (some user, none)) := by
  simp only [GetUser] at hok ⊢
  split at hok
  · simp at hok
  · split at hok
    · simp at hok
    · exact ⟨_, rfl⟩
    · simp at hok

theorem GetUser_effects (w : World) (h : Handle) (id : Int) (ev : Event)
    (hev : ev ∈ (GetUser w h id).1) :
    ev = Event.query h SQL_SELECT_USER_BY_ID [GoValue.int id] ∨ ev = Event.rowsClose := by
  simp only [GetUser] at hev
  split at hev
  · simp only [List.mem_singleton] at hev
    exact Or.inl hev
  · split at hev <;> simpa using hev

theorem registerUser_accepted (w : World) (body : Body)
    (firstName lastName email password pictureUrl : String)
    (hacc : Accepted w body firstName lastName email password pictureUrl) :
    registerUser w (Except.ok body) =
      match w.GenerateFromPassword password 7 with
      | .error err => [Event.hash password 7, Event.respondError err]
      | .ok hashedPassword =>
        match w.Begin with
        | some err => [Event.hash password 7, Event.begin, Event.respondError err]
        | none =>
          [Event.hash password 7, Event.begin] ++
            registerInTx w firstName lastName email hashedPassword pictureUrl := by
  obtain ⟨hf, hl, he, hemail, hp, hpassword, hpic⟩ := hacc
  simp [registerUser, hf, hl, he, hemail, hp, hpassword, hpic, StringValue]

theorem registerUser_rejected_or_accepted (w : World) (body : Body) :
    (∃ field, field ∈ ["firstName", "lastName", "email", "password", "pictureUrl"] ∧
      registerUser w (Except.ok body) = [Event.respondError (invalidField w field)]) ∨
    (∃ firstName lastName email password pictureUrl,
      Accepted w body firstName lastName email password pictureUrl) := by
  by_cases hf : ∃ s, body.index USER_FIELD_FIRST_NAME = Json.string s
  swap
  · refine Or.inl ⟨USER_FIELD_FIRST_NAME, by simp [USER_FIELD_FIRST_NAME], ?_⟩
    cases hv : body.index USER_FIELD_FIRST_NAME with
    | string s => exact absurd ⟨s, hv⟩ hf
    | _ => simp [registerUser, hv, StringValue]
  obtain ⟨f, hf⟩ := hf
  by_cases hl : ∃ s, body.index USER_FIELD_LAST_NAME = Json.string s
  swap
  · refine Or.inl ⟨USER_FIELD_LAST_NAME, by simp [USER_FIELD_LAST_NAME], ?_⟩
    cases hv : body.index USER_FIELD_LAST_NAME with
    | string s => exact absurd ⟨s, hv⟩ hl
    | _ => simp [registerUser, hf, hv, StringValue]
  obtain ⟨l, hl⟩ := hl
  by_cases he : ∃ s, body.index USER_FIELD_EMAIL = Json.string s ∧ w.IsEmail s = true
  swap
  · refine Or.inl ⟨USER_FIELD_EMAIL, by simp [USER_FIELD_EMAIL], ?_⟩
    cases hv : body.index USER_FIELD_EMAIL with
    | string s =>
      have hs : w.IsEmail s = false := by
        cases hb : w.IsEmail s with
        | false => rfl
        | true => exact absurd ⟨s, hv, hb⟩ he
      simp [registerUser, hf, hl, hv, hs, StringValue]
    | _ => simp [registerUser, hf, hl, hv, StringValue]
  obtain ⟨e, he, hemail⟩ := he
  by_cases hp : ∃ s, body.index USER_FIELD_PASSWORD = Json.string s ∧ w.IsValidPassword s = true
  swap
  · refine Or.inl ⟨USER_FIELD_PASSWORD, by simp [USER_FIELD_PASSWORD], ?_⟩
    cases hv : body.index USER_FIELD_PASSWORD with
    | string s =>
      have hs : w.IsValidPassword s = false := by
        cases hb : w.IsValidPassword s with
        | false => rfl
        | true => exact absurd ⟨s, hv, hb⟩ hp
      simp [registerUser, hf, hl, he, hemail, hv, hs, StringValue]
    | _ => simp [registerUser, hf, hl, he, hemail, hv, StringValue]
  obtain ⟨pw, hp, hpassword⟩ := hp
  by_cases hpic : ∃ s, body.index USER_FIELD_PICTURE_URL = Json.string s
  swap
  · refine Or.inl ⟨USER_FIELD_PICTURE_URL, by simp [USER_FIELD_PICTURE_URL], ?_⟩
    cases hv : body.index USER_FIELD_PICTURE_URL with
    | string s => exact absurd ⟨s, hv⟩ hpic
    | _ => simp [registerUser, hf, hl, he, hemail, hp, hpassword, hv, StringValue]
  obtain ⟨pic, hpic⟩ := hpic
  exact Or.inr ⟨f, l, e, pw, pic, hf, hl, he, hemail, hp, hpassword, hpic⟩

/-! ## The register route -/

/-- C4: for every decoded body of a registration request, the first field, in the order
firstName, lastName, email, password, pictureUrl, that is not a string (or, for email and
password, fails its check) decides the answer: the handler calls `responder.Error` once,
with the public error of status 400 and code `ERRCODE_INVALID_FIELD` whose message is the
invalid-field text of that field, and does nothing else: no hashing, no `Begin`, no insert,
no provider call.  This is the answer whenever some field fails. -/
theorem register_invalid_field (w : World) (body : Body) :
    ((∀ s, body.index "firstName" ≠ Json.string s) →
      registerUser w (Except.ok body) = [Event.respondError
        (GoError.pub 400 w.ERRCODE_INVALID_FIELD (w.ERR_BODY_FIELD_INVALID "firstName"))]) ∧
    (∀ f, body.index "firstName" = Json.string f →
      (∀ s, body.index "lastName" ≠ Json.string s) →
      registerUser w (Except.ok body) = [Event.respondError
        (GoError.pub 400 w.ERRCODE_INVALID_FIELD (w.ERR_BODY_FIELD_INVALID "lastName"))]) ∧
    (∀ f l, body.index "firstName" = Json.string f → body.index "lastName" = Json.string l →
      (∀ s, body.index "email" = Json.string s → w.IsEmail s = false) →
      registerUser w (Except.ok body) = [Event.respondError
        (GoError.pub 400 w.ERRCODE_INVALID_FIELD (w.ERR_BODY_FIELD_INVALID "email"))]) ∧
    (∀ f l e, body.index "firstName" = Json.string f → body.index "lastName" = Json.string l →
      body.index "email" = Json.string e → w.IsEmail e = true →
      (∀ s, body.index "password" = Json.string s → w.IsValidPassword s = false) →
      registerUser w (Except.ok body) = [Event.respondError
        (GoError.pub 400 w.ERRCODE_INVALID_FIELD (w.ERR_BODY_FIELD_INVALID "password"))]) ∧
    (∀ f l e p, body.index "firstName" = Json.string f → body.index "lastName" = Json.string l →
      body.index "email" = Json.string e → w.IsEmail e = true →
      body.index "password" = Json.string p → w.IsValidPassword p = true →
      (∀ s, body.index "pictureUrl" ≠ Json.string s) →
      registerUser w (Except.ok body) = [Event.respondError
        (GoError.pub 400 w.ERRCODE_INVALID_FIELD (w.ERR_BODY_FIELD_INVALID "pictureUrl"))]) ∧
    ((¬ ∃ f l e p u, body.index "firstName" = Json.string f ∧
        body.index "lastName" = Json.string l ∧
        body.index "email" = Json.string e ∧ w.IsEmail e = true ∧
        body.index "password" = Json.string p ∧ w.IsValidPassword p = true ∧
        body.index "pictureUrl" = Json.string u) →
      ∃ field, field ∈ ["firstName", "lastName", "email", "password", "pictureUrl"] ∧
        registerUser w (Except.ok body) = [Event.respondError
          (GoError.pub 400 w.ERRCODE_INVALID_FIELD (w.ERR_BODY_FIELD_INVALID field))]) := by
  refine ⟨?_, ?_, ?_, ?_, ?_, ?_⟩
  · intro hnot
    cases hv : body.index USER_FIELD_FIRST_NAME with
    | string s => exact absurd hv (hnot s)
    | _ => simp [registerUser, hv, StringValue]; rfl
  · intro f hf hnot
    have hf' : body.index USER_FIELD_FIRST_NAME = Json.string f := hf
    cases hv : body.index USER_FIELD_LAST_NAME with
    | string s => exact absurd hv (hnot s)
    | _ => simp [registerUser, hf', hv, StringValue]; rfl
  · intro f l hf hl hnot
    have hf' : body.index USER_FIELD_FIRST_NAME = Json.string f := hf
    have hl' : body.index USER_FIELD_LAST_NAME = Json.string l := hl
    cases hv : body.index USER_FIELD_EMAIL with
    | string s =>
      have hs := hnot s hv
      simp [registerUser, hf', hl', hv, hs, StringValue]; rfl
    | _ => simp [registerUser, hf', hl', hv, StringValue]; rfl
  · intro f l e hf hl he hemail hnot
    have hf' : body.index USER_FIELD_FIRST_NAME = Json.string f := hf
    have hl' : body.index USER_FIELD_LAST_NAME = Json.string l := hl
    have he' : body.index USER_FIELD_EMAIL = Json.string e := he
    cases hv : body.index USER_FIELD_PASSWORD with
    | string s =>
      have hs := hnot s hv
      simp [registerUser, hf', hl', he', hemail, hv, hs, StringValue]; rfl
    | _ => simp [registerUser, hf', hl', he', hemail, hv, StringValue]; rfl
  · intro f l e p hf hl he hemail hp hpassword hnot
    have hf' : body.index USER_FIELD_FIRST_NAME = Json.string f := hf
    have hl' : body.index USER_FIELD_LAST_NAME = Json.string l := hl
    have he' : body.index USER_FIELD_EMAIL = Json.string e := he
    have hp' : body.index USER_FIELD_PASSWORD = Json.string p := hp
    cases hv : body.index USER_FIELD_PICTURE_URL with
    | string s => exact absurd hv (hnot s)
    | _ => simp [registerUser, hf', hl', he', hemail, hp', hpassword, hv, StringValue]; rfl
  · intro hnot
    rcases registerUser_rejected_or_accepted w body with ⟨field, hfield, htrace⟩ | hacc
    · exact ⟨field, hfield, htrace⟩
    · exact absurd hacc hnot

theorem register_invalid_field_witness :
    registerUser calmWorld (Except.ok noEmailBody) =
      [Event.respondError (GoError.pub 400 4 "invalid field: email")] := by
  refine (register_invalid_field calmWorld noEmailBody).2.2.1 "Ada" "Lovelace" rfl rfl ?_
  intro s hs
  have hs' : Json.string "not-an-email" = Json.string s := hs
  cases hs'
  decide

/-- C2: in the register route, once the request is accepted, the password hashed and the
transaction open, the first step that fails among the insert, the provider call, the attach
and the commit ends the run: the effects are the steps up to the failing one, then
`Rollback`, then `responder.Error` with the error of that step, and nothing else.  So no
provider call follows a failed insert, no `Commit` follows a failed provider call or a
failed attach, and no success response is sent. -/
theorem register_first_failure (w : World) (body : Body) (f l e pw pic hp : String)
    (hacc : Accepted w body f l e pw pic)
    (hhash : w.GenerateFromPassword pw 7 = Except.ok hp)
    (hbegin : w.Begin = none) :
    (∀ newId err,
      (CreateNewUser w Handle.tx f l e hp "" pic w.nowCreate).2 = (newId, some err) →
      registerUser w (Except.ok body) =
        [Event.hash pw 7, Event.begin, insertCall w f l e hp pic,
          Event.rollback, Event.respondError err]) ∧
    (∀ newId err,
      (CreateNewUser w Handle.tx f l e hp "" pic w.nowCreate).2 = (newId, none) →
      w.NewStripeCustomerId e newId f l = Except.error err →
      registerUser w (Except.ok body) =
        [Event.hash pw 7, Event.begin, insertCall w f l e hp pic,
          Event.stripeCustomer e newId f l, Event.rollback, Event.respondError err]) ∧
    (∀ newId stripeId err,
      (CreateNewUser w Handle.tx f l e hp "" pic w.nowCreate).2 = (newId, none) →
      w.NewStripeCustomerId e newId f l = Except.ok stripeId →
      (UpdateUserFields w Handle.tx newId [("stripe_id", GoValue.str stripeId)]
        w.nowUpdate).2.1 = some err →
      ∃ sql args,
        (UpdateUserFields w Handle.tx newId [("stripe_id", GoValue.str stripeId)]
          w.nowUpdate).1 = [Event.exec Handle.tx sql args] ∧
        registerUser w (Except.ok body) =
          [Event.hash pw 7, Event.begin, insertCall w f l e hp pic,
            Event.stripeCustomer e newId f l, Event.exec Handle.tx sql args,
            Event.rollback, Event.respondError err]) ∧
    (∀ newId stripeId err,
      (CreateNewUser w Handle.tx f l e hp "" pic w.nowCreate).2 = (newId, none) →
      w.NewStripeCustomerId e newId f l = Except.ok stripeId →
      (UpdateUserFields w Handle.tx newId [("stripe_id", GoValue.str stripeId)]
        w.nowUpdate).2.1 = none →
      w.Commit = some err →
      ∃ sql args,
        (UpdateUserFields w Handle.tx newId [("stripe_id", GoValue.str stripeId)]
          w.nowUpdate).1 = [Event.exec Handle.tx sql args] ∧
        registerUser w (Except.ok body) =
          [Event.hash pw 7, Event.begin, insertCall w f l e hp pic,
            Event.stripeCustomer e newId f l, Event.exec Handle.tx sql args,
            Event.commit, Event.rollback, Event.respondError err]) := by
  have hrun := registerUser_accepted w body f l e pw pic hacc
  simp only [hhash, hbegin] at hrun
  have hins := CreateNewUser_effects w Handle.tx f l e hp "" pic w.nowCreate
  refine ⟨?_, ?_, ?_, ?_⟩
  · intro newId err hcreate
    rw [hrun]
    simp only [registerInTx, hcreate, hins, insertCall]
    rfl
  · intro newId err hcreate hstripe
    have hid : (CreateNewUser w Handle.tx f l e hp "" pic w.nowCreate).2.1 = newId := by
      rw [hcreate]
    rw [hrun]
    simp only [registerInTx, hcreate, hid, hstripe, hins, insertCall]
    rfl
  · intro newId stripeId err hcreate hstripe hupdate
    have hid : (CreateNewUser w Handle.tx f l e hp "" pic w.nowCreate).2.1 = newId := by
      rw [hcreate]
    obtain ⟨sql, args, htrace, -⟩ :=
      UpdateUserFields_single w Handle.tx newId "stripe_id" (GoValue.str stripeId) w.nowUpdate
    have hupdate' : (UpdateUserFields w Handle.tx newId
        (GoMap.assign [] FIELD_USER_STRIPE_ID (GoValue.str stripeId)) w.nowUpdate).2.1 =
        some err := hupdate
    have htrace' : (UpdateUserFields w Handle.tx newId
        (GoMap.assign [] FIELD_USER_STRIPE_ID (GoValue.str stripeId)) w.nowUpdate).1 =
        [Event.exec Handle.tx sql args] := htrace
    refine ⟨sql, args, htrace, ?_⟩
    rw [hrun]
    simp only [registerInTx, hcreate, hid, hstripe, hupdate', htrace', hins, insertCall]
    rfl
  · intro newId stripeId err hcreate hstripe hupdate hcommit
    have hid : (CreateNewUser w Handle.tx f l e hp "" pic w.nowCreate).2.1 = newId := by
      rw [hcreate]
    obtain ⟨sql, args, htrace, -⟩ :=
      UpdateUserFields_single w Handle.tx newId "stripe_id" (GoValue.str stripeId) w.nowUpdate
    have hupdate' : (UpdateUserFields w Handle.tx newId
        (GoMap.assign [] FIELD_USER_STRIPE_ID (GoValue.str stripeId)) w.nowUpdate).2.1 =
        none := hupdate
    have htrace' : (UpdateUserFields w Handle.tx newId
        (GoMap.assign [] FIELD_USER_STRIPE_ID (GoValue.str stripeId)) w.nowUpdate).1 =
        [Event.exec Handle.tx sql args] := htrace
    refine ⟨sql, args, htrace, ?_⟩
    rw [hrun]
    simp only [registerInTx, hcreate, hid, hstripe, hupdate', htrace', hcommit, hins,
      insertCall]
    rfl

theorem register_first_failure_witness :
    Accepted refusingWorld adaBody "Ada" "Lovelace" "ada@example.com" "Str0ngPass!"
      "http://x/a.png" ∧
    registerUser refusingWorld (Except.ok adaBody) =
      [Event.hash "Str0ngPass!" 7, Event.begin,
        insertCall refusingWorld "Ada" "Lovelace" "ada@example.com" "hashed:Str0ngPass!"
          "http://x/a.png",
        Event.stripeCustomer "ada@example.com" 1 "Ada" "Lovelace", Event.rollback,
        Event.respondError (GoError.other "stripe: card error")] :=
  have hacc : Accepted refusingWorld adaBody "Ada" "Lovelace" "ada@example.com" "Str0ngPass!"
      "http://x/a.png" := ⟨rfl, rfl, rfl, by decide, rfl, by decide, rfl⟩
  ⟨hacc,
   (register_first_failure refusingWorld adaBody "Ada" "Lovelace" "ada@example.com"
      "Str0ngPass!" "http://x/a.png" "hashed:Str0ngPass!" hacc rfl rfl).2.1 1 _ rfl rfl⟩

/-- C3: whenever the register route answers with `responder.Json`, the body was accepted
and the run did, in this order and each once: hash the password; `Begin`; the insert of
`CreateNewUser` on the transaction with an empty external identity, which gave `newId`;
`NewStripeCustomerId(email, newId, firstName, lastName)`, which gave `stripeId`; the single
`Exec` of `UpdateUserFields` on the transaction for `newId` with the field map
`stripe_id ↦ stripeId`; a `Commit` that succeeded; the query of `GetUser` for `newId` on
the plain connection; and the response.  No `Rollback` is among the effects, and the
payload is the user `GetUser` returned. -/
theorem register_success (w : World) (decoded : Except GoError Body) (p : Payload)
    (hjson : Event.respondJson p ∈ registerUser w decoded) :
    ∃ body f l e pw pic hp newId stripeId sql args user,
      decoded = Except.ok body ∧ Accepted w body f l e pw pic ∧
      w.GenerateFromPassword pw 7 = Except.ok hp ∧ w.Begin = none ∧
      CreateNewUser w Handle.tx f l e hp "" pic w.nowCreate =
        ([insertCall w f l e hp pic], (newId, none)) ∧
      w.NewStripeCustomerId e newId f l = Except.ok stripeId ∧
      (UpdateUserFields w Handle.tx newId [("stripe_id", GoValue.str stripeId)]
        w.nowUpdate).1 = [Event.exec Handle.tx sql args] ∧
      (UpdateUserFields w Handle.tx newId [("stripe_id", GoValue.str stripeId)]
        w.nowUpdate).2.1 = none ∧
      w.Commit = none ∧
      GetUser w Handle.db newId =
        ([Event.query Handle.db SQL_SELECT_USER_BY_ID [GoValue.int newId], Event.rowsClose],
          (some user, none)) ∧
      p = Payload.user (some user) ∧
      registerUser w decoded =
        [Event.hash pw 7, Event.begin, insertCall w f l e hp pic,
          Event.stripeCustomer e newId f l, Event.exec Handle.tx sql args, Event.commit,
          Event.query Handle.db SQL_SELECT_USER_BY_ID [GoValue.int newId], Event.rowsClose,
          Event.respondJson (Payload.user (some user))] := by
  cases decoded with
  | error err => simp [registerUser] at hjson
  | ok body =>
    rcases registerUser_rejected_or_accepted w body with ⟨field, -, htrace⟩ | hacc
    · rw [htrace] at hjson
      simp at hjson
    obtain ⟨f, l, e, pw, pic, hacc⟩ := hacc
    have hrun := registerUser_accepted w body f l e pw pic hacc
    cases hhash : w.GenerateFromPassword pw 7 with
    | error err =>
      simp only [hhash] at hrun
      rw [hrun] at hjson
      simp at hjson
    | ok hp =>
      cases hbegin : w.Begin with
      | some err =>
        simp only [hhash, hbegin] at hrun
        rw [hrun] at hjson
        simp at hjson
      | none =>
        simp only [hhash, hbegin] at hrun
        have hins := CreateNewUser_effects w Handle.tx f l e hp "" pic w.nowCreate
        rcases hcreate : (CreateNewUser w Handle.tx f l e hp "" pic w.nowCreate).2 with
          ⟨newId, cerr⟩
        have hid : (CreateNewUser w Handle.tx f l e hp "" pic w.nowCreate).2.1 = newId := by
          rw [hcreate]
        cases cerr with
        | some err =>
          simp only [registerInTx, hcreate, hins] at hrun
          rw [hrun] at hjson
          simp at hjson
        | none =>
          cases hstripe : w.NewStripeCustomerId e newId f l with
          | error err =>
            simp only [registerInTx, hcreate, hid, hstripe, hins] at hrun
            rw [hrun] at hjson
            simp at hjson
          | ok stripeId =>
            obtain ⟨sql, args, htrace, -⟩ :=
              UpdateUserFields_single w Handle.tx newId "stripe_id" (GoValue.str stripeId)
                w.nowUpdate
            have htrace' : (UpdateUserFields w Handle.tx newId
                (GoMap.assign [] FIELD_USER_STRIPE_ID (GoValue.str stripeId)) w.nowUpdate).1 =
                [Event.exec Handle.tx sql args] := htrace
            cases hupdate : (UpdateUserFields w Handle.tx newId
                (GoMap.assign [] FIELD_USER_STRIPE_ID (GoValue.str stripeId)) w.nowUpdate).2.1 with
            | some err =>
              simp only [registerInTx, hcreate, hid, hstripe, hupdate, htrace', hins] at hrun
              rw [hrun] at hjson
              simp at hjson
            | none =>
              cases hcommit : w.Commit with
              | some err =>
                simp only [registerInTx, hcreate, hid, hstripe, hupdate, htrace', hcommit,
                  hins] at hrun
                rw [hrun] at hjson
                simp at hjson
              | none =>
                cases hread : (GetUser w Handle.db newId).2.2 with
                | some err =>
                  simp only [registerInTx, hcreate, hid, hstripe, hupdate, htrace', hcommit,
                    hread, hins] at hrun
                  rw [hrun] at hjson
                  simp only [List.mem_append, List.mem_cons, List.mem_singleton,
                    List.not_mem_nil, or_false, false_or, reduceCtorEq] at hjson
                  rcases GetUser_effects w Handle.db newId _ hjson with h1 | h1 <;>
                    cases h1
                | none =>
                  obtain ⟨user, hget⟩ := GetUser_returns_user w Handle.db newId hread
                  simp only [registerInTx, hcreate, hid, hstripe, hupdate, htrace', hcommit,
                    hget, hins] at hrun
                  have hp' : p = Payload.user (some user) := by
                    rw [hrun] at hjson
                    simpa using hjson
                  refine ⟨body, f, l, e, pw, pic, hp, newId, stripeId, sql, args, user, rfl,
                    hacc, hhash, rfl, ?_, hstripe, htrace, hupdate, rfl, hget, hp',
                    ?_⟩
                  · rw [Prod.ext_iff]
                    exact ⟨hins, hcreate⟩
                  · rw [hrun]
                    rfl

theorem register_success_witness :
    Event.respondJson (Payload.user (some ada)) ∈ registerUser calmWorld (Except.ok adaBody) ∧
    Event.rollback ∉ registerUser calmWorld (Except.ok adaBody) ∧
    (registerUser calmWorld (Except.ok adaBody)).length = 9 := by
  have hjson : Event.respondJson (Payload.user (some ada)) ∈
      registerUser calmWorld (Except.ok adaBody) := by decide
  obtain ⟨body, f, l, e, pw, pic, hp, newId, stripeId, sql, args, user, -, -, -, -, -, -, -,
    -, -, -, -, htrace⟩ :=
    register_success calmWorld (Except.ok adaBody) (Payload.user (some ada)) hjson
  refine ⟨hjson, ?_, ?_⟩
  · rw [htrace]
    simp [insertCall]
  · rw [htrace]
    rfl

/-- C5, as the code runs it: a registration whose first name has 101 characters, every
other field being valid, is not rejected.  The handler hashes the password, opens the
transaction, runs the insert with the long name and goes on to the provider; no
invalid-field error is sent. -/
theorem register_long_name_reaches_store :
    longName.length = 101 ∧
    registerUser calmWorld (Except.ok longNameBody) =
      [Event.hash "Str0ngPass!" 7, Event.begin,
        insertCall calmWorld longName "Lovelace" "ada@example.com" "hashed:Str0ngPass!"
          "http://x/a.png",
        Event.stripeCustomer "ada@example.com" 1 longName "Lovelace",
        Event.exec Handle.tx
          "\n\t\tUPDATE users SET updated_at = $2, stripe_id = $3 WHERE (id = $1);;\n\t"
          [GoValue.int 1, GoValue.time 1001, GoValue.str "cus_1"],
        Event.commit,
        Event.query Handle.db SQL_SELECT_USER_BY_ID [GoValue.int 1], Event.rowsClose,
        Event.respondJson (Payload.user (some ada))] := by
  constructor
  · simp [longName, String.length]
  · set_option maxRecDepth 8000 in decide

/-- C6, as stated, fails: in a world where the provider names the customer `cus_1` and the
store then fails the attach statement, the effects of the register route are the steps
up to the attach, `Rollback` and `responder.Error`; none of them reports the orphaned
identity `cus_1` to the diagnostics. -/
theorem register_orphan_not_reported :
    attachFailWorld.NewStripeCustomerId "ada@example.com" 1 "Ada" "Lovelace" =
      Except.ok "cus_1" ∧
    (UpdateUserFields attachFailWorld Handle.tx 1 [("stripe_id", GoValue.str "cus_1")]
      attachFailWorld.nowUpdate).2.1 = some (GoError.other "pq: could not serialize access") ∧
    registerUser attachFailWorld (Except.ok adaBody) =
      [Event.hash "Str0ngPass!" 7, Event.begin,
        insertCall attachFailWorld "Ada" "Lovelace" "ada@example.com" "hashed:Str0ngPass!"
          "http://x/a.png",
        Event.stripeCustomer "ada@example.com" 1 "Ada" "Lovelace",
        Event.exec Handle.tx
          "\n\t\tUPDATE users SET updated_at = $2, stripe_id = $3 WHERE (id = $1);;\n\t"
          [GoValue.int 1, GoValue.time 1001, GoValue.str "cus_1"],
        Event.rollback,
        Event.respondError (GoError.other "pq: could not serialize access")] ∧
    ¬ ∃ ev, ev ∈ registerUser attachFailWorld (Except.ok adaBody) ∧
      reportsOrphan "cus_1" ev = true := by
  refine ⟨rfl, rfl, ?_, ?_⟩
  · set_option maxRecDepth 8000 in decide
  · set_option maxRecDepth 8000 in decide

/-- C6, amended: after `NewStripeCustomerId` has succeeded, when the attach step fails the
effects of the register route after the provider call are exactly the `Exec` of the attach,
`Rollback` and `responder.Error` with the error of the attach; when the attach succeeds and
the `Commit` fails they are exactly that `Exec`, `Commit`, `Rollback` and `responder.Error`
with the error of the commit.  On both paths no effect of the handler is a report of the
orphaned identity distinct from `responder.Error`. -/
theorem register_orphan_path (w : World) (body : Body) (f l e pw pic hp : String)
    (newId : Int) (stripeId : String) (err : GoError)
    (hacc : Accepted w body f l e pw pic)
    (hhash : w.GenerateFromPassword pw 7 = Except.ok hp)
    (hbegin : w.Begin = none)
    (hcreate : (CreateNewUser w Handle.tx f l e hp "" pic w.nowCreate).2 = (newId, none))
    (hstripe : w.NewStripeCustomerId e newId f l = Except.ok stripeId) :
    ((UpdateUserFields w Handle.tx newId [("stripe_id", GoValue.str stripeId)]
        w.nowUpdate).2.1 = some err →
      ∃ sql args,
        (UpdateUserFields w Handle.tx newId [("stripe_id", GoValue.str stripeId)]
          w.nowUpdate).1 = [Event.exec Handle.tx sql args] ∧
        registerUser w (Except.ok body) =
          [Event.hash pw 7, Event.begin, insertCall w f l e hp pic,
            Event.stripeCustomer e newId f l, Event.exec Handle.tx sql args,
            Event.rollback, Event.respondError err] ∧
        ∀ ev, ev ∈ registerUser w (Except.ok body) → reportsOrphan stripeId ev = false) ∧
    ((UpdateUserFields w Handle.tx newId [("stripe_id", GoValue.str stripeId)]
        w.nowUpdate).2.1 = none → w.Commit = some err →
      ∃ sql args,
        (UpdateUserFields w Handle.tx newId [("stripe_id", GoValue.str stripeId)]
          w.nowUpdate).1 = [Event.exec Handle.tx sql args] ∧
        registerUser w (Except.ok body) =
          [Event.hash pw 7, Event.begin, insertCall w f l e hp pic,
            Event.stripeCustomer e newId f l, Event.exec Handle.tx sql args,
            Event.commit, Event.rollback, Event.respondError err] ∧
        ∀ ev, ev ∈ registerUser w (Except.ok body) → reportsOrphan stripeId ev = false) := by
  have hrun := registerUser_accepted w body f l e pw pic hacc
  simp only [hhash, hbegin] at hrun
  have hins := CreateNewUser_effects w Handle.tx f l e hp "" pic w.nowCreate
  have hid : (CreateNewUser w Handle.tx f l e hp "" pic w.nowCreate).2.1 = newId := by
    rw [hcreate]
  obtain ⟨sql, args, htrace, -⟩ :=
    UpdateUserFields_single w Handle.tx newId "stripe_id" (GoValue.str stripeId) w.nowUpdate
  have htrace' : (UpdateUserFields w Handle.tx newId
      (GoMap.assign [] FIELD_USER_STRIPE_ID (GoValue.str stripeId)) w.nowUpdate).1 =
      [Event.exec Handle.tx sql args] := htrace
  refine ⟨?_, ?_⟩
  · intro hupdate
    have hupdate' : (UpdateUserFields w Handle.tx newId
        (GoMap.assign [] FIELD_USER_STRIPE_ID (GoValue.str stripeId)) w.nowUpdate).2.1 =
        some err := hupdate
    have hall : registerUser w (Except.ok body) =
        [Event.hash pw 7, Event.begin, insertCall w f l e hp pic,
          Event.stripeCustomer e newId f l, Event.exec Handle.tx sql args,
          Event.rollback, Event.respondError err] := by
      rw [hrun]
      simp only [registerInTx, hcreate, hid, hstripe, hupdate', htrace', hins, insertCall]
      rfl
    refine ⟨sql, args, htrace, hall, ?_⟩
    intro ev hev
    rw [hall] at hev
    simp only [List.mem_cons, List.mem_singleton, List.not_mem_nil, or_false] at hev
    rcases hev with rfl | rfl | rfl | rfl | rfl | rfl | rfl <;>
      simp [reportsOrphan, insertCall]
  · intro hupdate hcommit
    have hupdate' : (UpdateUserFields w Handle.tx newId
        (GoMap.assign [] FIELD_USER_STRIPE_ID (GoValue.str stripeId)) w.nowUpdate).2.1 =
        none := hupdate
    have hall : registerUser w (Except.ok body) =
        [Event.hash pw 7, Event.begin, insertCall w f l e hp pic,
          Event.stripeCustomer e newId f l, Event.exec Handle.tx sql args,
          Event.commit, Event.rollback, Event.respondError err] := by
      rw [hrun]
      simp only [registerInTx, hcreate, hid, hstripe, hupdate', htrace', hcommit, hins,
        insertCall]
      rfl
    refine ⟨sql, args, htrace, hall, ?_⟩
    intro ev hev
    rw [hall] at hev
    simp only [List.mem_cons, List.mem_singleton, List.not_mem_nil, or_false] at hev
    rcases hev with rfl | rfl | rfl | rfl | rfl | rfl | rfl | rfl <;>
      simp [reportsOrphan, insertCall]

theorem register_orphan_path_witness :
    Accepted attachFailWorld adaBody "Ada" "Lovelace" "ada@example.com" "Str0ngPass!"
      "http://x/a.png" ∧
    (∃ sql args,
      (UpdateUserFields attachFailWorld Handle.tx 1 [("stripe_id", GoValue.str "cus_1")]
        attachFailWorld.nowUpdate).1 = [Event.exec Handle.tx sql args] ∧
      registerUser attachFailWorld (Except.ok adaBody) =
        [Event.hash "Str0ngPass!" 7, Event.begin,
          insertCall attachFailWorld "Ada" "Lovelace" "ada@example.com" "hashed:Str0ngPass!"
            "http://x/a.png",
          Event.stripeCustomer "ada@example.com" 1 "Ada" "Lovelace",
          Event.exec Handle.tx sql args, Event.rollback,
          Event.respondError (GoError.other "pq: could not serialize access")] ∧
      ∀ ev, ev ∈ registerUser attachFailWorld (Except.ok adaBody) →
        reportsOrphan "cus_1" ev = false) ∧
    (∃ sql args,
      (UpdateUserFields commitFailWorld Handle.tx 1 [("stripe_id", GoValue.str "cus_1")]
        commitFailWorld.nowUpdate).1 = [Event.exec Handle.tx sql args] ∧
      registerUser commitFailWorld (Except.ok adaBody) =
        [Event.hash "Str0ngPass!" 7, Event.begin,
          insertCall commitFailWorld "Ada" "Lovelace" "ada@example.com" "hashed:Str0ngPass!"
            "http://x/a.png",
          Event.stripeCustomer "ada@example.com" 1 "Ada" "Lovelace",
          Event.exec Handle.tx sql args, Event.commit, Event.rollback,
          Event.respondError (GoError.other "pq: commit failed")] ∧
      ∀ ev, ev ∈ registerUser commitFailWorld (Except.ok adaBody) →
        reportsOrphan "cus_1" ev = false) :=
  have hacc : Accepted attachFailWorld adaBody "Ada" "Lovelace" "ada@example.com"
      "Str0ngPass!" "http://x/a.png" := ⟨rfl, rfl, rfl, by decide, rfl, by decide, rfl⟩
  have hacc' : Accepted commitFailWorld adaBody "Ada" "Lovelace" "ada@example.com"
      "Str0ngPass!" "http://x/a.png" := ⟨rfl, rfl, rfl, by decide, rfl, by decide, rfl⟩
  ⟨hacc,
   (register_orphan_path attachFailWorld adaBody "Ada" "Lovelace" "ada@example.com"
      "Str0ngPass!" "http://x/a.png" "hashed:Str0ngPass!" 1 "cus_1"
      (GoError.other "pq: could not serialize access") hacc rfl rfl rfl rfl).1 rfl,
   (register_orphan_path commitFailWorld adaBody "Ada" "Lovelace" "ada@example.com"
      "Str0ngPass!" "http://x/a.png" "hashed:Str0ngPass!" 1 "cus_1"
      (GoError.other "pq: commit failed") hacc' rfl rfl rfl rfl).2 rfl rfl⟩

end Equitize
